import Mathlib

/-!
Verification of `elevation_layer` (src/elevation_layer/src/elevation_layer.cpp).

The layer keeps a shared elevation grid received asynchronously, classifies
each grid cell as free or lethal using a height threshold with an optional
edge-sharpness refinement, and merges the result into a master cost buffer.

Shallow embedding conventions:
* `double` values are modelled as `ℚ`;
* the external collaborators (filter chain, footprint transform, host
  costmap primitives) are modelled as explicit function parameters or as
  definitions whose doc comment says what they stand for;
* ROS warnings are side effects with no bearing on state and are dropped.
-/

namespace ElevationMapping

/-- costmap_2d::FREE_SPACE. -/
def FREE_SPACE : ℕ := 0

/-- costmap_2d::LETHAL_OBSTACLE. -/
def LETHAL_OBSTACLE : ℕ := 254

/-- costmap_2d::NO_INFORMATION. -/
def NO_INFORMATION : ℕ := 255

/-- grid_map::GridMap: named float layers over a common cell set, each cell
having a world position (`getPosition`).  `cells` lists the indices in the
order `grid_map::GridMapIterator` visits them (after
`convertToDefaultStartIndex` the start index is canonical, so a plain list
is faithful). -/
structure GridMap where
  frameId : String
  cells : List (ℕ × ℕ)
  pos : ℕ × ℕ → ℚ × ℚ
  layers : List (String × (ℕ × ℕ → ℚ))

/-- `map[name]`: the data matrix of a layer (missing layers are never read
by the source on the paths we verify; a default all-zero matrix stands in). -/
def GridMap.getLayer (m : GridMap) (name : String) : ℕ × ℕ → ℚ :=
  (m.layers.lookup name).getD (fun _ => 0)

/-- `map.exists(name)`. -/
def GridMap.existsLayer (m : GridMap) (name : String) : Bool :=
  (m.layers.lookup name).isSome

/-- A default-constructed `grid_map::GridMap`: no layers, no cells. -/
def emptyGridMap : GridMap :=
  { frameId := "", cells := [], pos := fun _ => (0, 0), layers := [] }

/-- The layer's own costmap (the parent `costmap_2d::Costmap2D` state):
geometry plus the cost cells, addressed by map index. -/
structure Costmap where
  originX : ℚ
  originY : ℚ
  resolution : ℚ
  sizeX : ℕ
  sizeY : ℕ
  defaultValue : ℕ
  cost : ℕ × ℕ → ℕ

/-- costmap_2d::Costmap2D::worldToMap: fails below the origin or past the
size; the C cast to int is truncation, which on the guarded non-negative
quotient equals the floor (`Rat.floor`). -/
def Costmap.worldToMap (c : Costmap) (wx wy : ℚ) : Option (ℕ × ℕ) :=
  if wx < c.originX ∨ wy < c.originY then none
  else
    let mx : ℤ := ⌊(wx - c.originX) / c.resolution⌋
    let my : ℤ := ⌊(wy - c.originY) / c.resolution⌋
    if mx < (c.sizeX : ℤ) ∧ my < (c.sizeY : ℤ) then some (mx.toNat, my.toNat)
    else none

/-- costmap_2d::Costmap2D::setCost. -/
def Costmap.setCost (c : Costmap) (mx my v : ℕ) : Costmap :=
  { c with cost := fun p => if p = (mx, my) then v else c.cost p }

/-- costmap_2d::Costmap2D::mapToWorld for a single cell: the world position
of the cell's center. -/
def Costmap.cellCenter (c : Costmap) (p : ℕ × ℕ) : ℚ × ℚ :=
  (c.originX + (p.1 + 1 / 2) * c.resolution,
   c.originY + (p.2 + 1 / 2) * c.resolution)

/-- Cross product used for the convex-polygon membership test:
`(a - o) × (q - o)`. -/
def crossProd (o a q : ℚ × ℚ) : ℚ :=
  (a.1 - o.1) * (q.2 - o.2) - (a.2 - o.2) * (q.1 - o.1)

/-- Membership of a point in a convex polygon given counter-clockwise:
the point is on the left of (or on) every directed edge. -/
def insideConvex (poly : List (ℚ × ℚ)) (q : ℚ × ℚ) : Bool :=
  (List.zip poly (poly.drop 1 ++ poly.take 1)).all fun e =>
    decide (0 ≤ crossProd e.1 e.2 q)

/-- Modelled from the spec: `costmap_2d::Costmap2D::setConvexPolygonCost`,
an external host primitive ("force every cell under the transformed robot
footprint polygon to FREE"): every in-range cell whose center lies under the
convex polygon receives the given cost. -/
def Costmap.setConvexPolygonCost (c : Costmap) (poly : List (ℚ × ℚ)) (v : ℕ) : Costmap :=
  { c with cost := fun p =>
      if p.1 < c.sizeX ∧ p.2 < c.sizeY ∧ insideConvex poly (c.cellCenter p) then v
      else c.cost p }

/-- costmap_2d::Costmap2D::resetMaps: every cell back to the default value. -/
def Costmap.resetMaps (c : Costmap) : Costmap :=
  { c with cost := fun _ => c.defaultValue }

/-- Modelled from the spec: `costmap_2d::Costmap2D::updateOrigin`, an
external host primitive — "reposition the OutputCostBuffer so its origin is
recentered under the robot".  The host's shifting of the retained cell
window is abstracted; the observable repositioning is the origin change. -/
def Costmap.updateOrigin (c : Costmap) (nx ny : ℚ) : Costmap :=
  { c with originX := nx, originY := ny }

/-- costmap_2d::Costmap2D::getSizeInMetersX, modelled as cell count times
resolution. -/
def Costmap.getSizeInMetersX (c : Costmap) : ℚ := c.sizeX * c.resolution

/-- costmap_2d::Costmap2D::getSizeInMetersY, modelled as cell count times
resolution. -/
def Costmap.getSizeInMetersY (c : Costmap) : ℚ := c.sizeY * c.resolution

/-- The state of elevation_layer::ElevationLayer (its own fields, the
relevant fields inherited from costmap_2d::Layer / CostmapLayer, and the
subscription status of `elevation_subscriber_`). -/
structure ElevationLayer where
  enabled : Bool
  current : Bool
  subscribed : Bool
  rolling_window : Bool
  elevation_map_received : Bool
  filters_configuration_loaded : Bool
  footprint_clearing_enabled : Bool
  global_frame : String
  elevation_layer_name : String
  edges_layer_name : String
  height_threshold : ℚ
  edges_sharpness_threshold : ℚ
  combination_method : ℤ
  footprint : List (ℚ × ℚ)
  transformed_footprint : List (ℚ × ℚ)
  elevation_map : GridMap
  costmap : Costmap

/-- ElevationLayer::elevationMapCallback (lines 148-172).  The message
conversion outcome is passed as `conv` (`none` = `fromMessage` failed, in
which case `incoming_map` stays default-constructed and the callback keeps
going); the filter chain (`filterChain_.update`) is the external function
`filterUpdate` (`none` = filter failure).  `convertToDefaultStartIndex` is
the identity in this model (the model's index lists are already canonical),
and the frame-mismatch branch only warns.  On filter success the filtered
map is stored and the height threshold halved inside the critical section;
otherwise the raw incoming map is stored.  The received flag ends `true`
either way (lines 168-171). -/
def elevationMapCallback (filterUpdate : GridMap → Option GridMap)
    (l : ElevationLayer) (conv : Option GridMap) : ElevationLayer :=
  let incoming_map := conv.getD emptyGridMap
  if l.filters_configuration_loaded then
    match filterUpdate incoming_map with
    | some filtered_map =>
        { l with elevation_map := filtered_map,
                 height_threshold := l.height_threshold / 2,
                 elevation_map_received := true }
    | none =>
        { l with elevation_map := incoming_map, elevation_map_received := true }
  else
    { l with elevation_map := incoming_map, elevation_map_received := true }

/-- ElevationLayer::deactivate: shut the subscriber down. -/
def ElevationLayer.deactivate (l : ElevationLayer) : ElevationLayer :=
  { l with subscribed := false }

/-- ElevationLayer::activate: re-subscribe. -/
def ElevationLayer.activate (l : ElevationLayer) : ElevationLayer :=
  { l with subscribed := true }

/-- ElevationLayer::reset (lines 183-188): `deactivate(); resetMaps();
current_ = true; activate();`. -/
def ElevationLayer.reset (l : ElevationLayer) : ElevationLayer :=
  let l1 := l.deactivate
  let l2 := { l1 with costmap := l1.costmap.resetMaps }
  let l3 := { l2 with current := true }
  l3.activate

/-- The value the updateCosts loop body (lines 116-129) writes for a grid
cell that mapped into the costmap: elevation strictly above the height
threshold is a lethal obstacle, unless an edges layer exists and its value
is strictly below the sharpness threshold (then free); elevation at or
below the threshold is free. -/
def cellCost (l : ElevationLayer) (idx : ℕ × ℕ) : ℕ :=
  if l.height_threshold < l.elevation_map.getLayer l.elevation_layer_name idx then
    if l.elevation_map.existsLayer l.edges_layer_name then
      if l.elevation_map.getLayer l.edges_layer_name idx < l.edges_sharpness_threshold then
        FREE_SPACE
      else LETHAL_OBSTACLE
    else LETHAL_OBSTACLE
  else FREE_SPACE

/-- One iteration of the updateCosts grid loop (lines 104-130): map the
cell's world position into the costmap; outside cells are skipped, inside
cells receive `cellCost`. -/
def passStep (l : ElevationLayer) (cm : Costmap) (idx : ℕ × ℕ) : Costmap :=
  match cm.worldToMap (l.elevation_map.pos idx).1 (l.elevation_map.pos idx).2 with
  | none => cm
  | some q => cm.setCost q.1 q.2 (cellCost l idx)

/-- The full grid pass of updateCosts over the shared elevation map. -/
def gridPass (l : ElevationLayer) : Costmap :=
  l.elevation_map.cells.foldl (passStep l) l.costmap

/-- Last-write-wins accumulator over recorded writes aimed at cell `p`. -/
def updAux (p : ℕ × ℕ) (acc : Option ℕ) (kv : (ℕ × ℕ) × ℕ) : Option ℕ :=
  if kv.1 = p then some kv.2 else acc

/-- The value the last write aimed at cell `p` carries, if any. -/
def lastVal (ws : List ((ℕ × ℕ) × ℕ)) (p : ℕ × ℕ) : Option ℕ :=
  ws.foldl (updAux p) none

/-- The writes the grid pass issues, in order: for every grid cell that
maps into the costmap `cm`, the target map cell and the classification
value. -/
def writeList (l : ElevationLayer) (cm : Costmap) (cells : List (ℕ × ℕ)) :
    List ((ℕ × ℕ) × ℕ) :=
  cells.filterMap fun idx =>
    (cm.worldToMap (l.elevation_map.pos idx).1 (l.elevation_map.pos idx).2).map
      fun q => (q, cellCost l idx)

/-- Membership of a map cell in the update region `[min_i, max_i) ×
[min_j, max_j)` handed to updateCosts. -/
def inRegion (min_i min_j max_i max_j : ℤ) (p : ℕ × ℕ) : Bool :=
  decide (min_i ≤ (p.1 : ℤ)) && decide ((p.1 : ℤ) < max_i) &&
  decide (min_j ≤ (p.2 : ℤ)) && decide ((p.2 : ℤ) < max_j)

/-- Modelled from the spec: `costmap_2d::CostmapLayer::updateWithOverwrite`,
an external host primitive — "OVERWRITE: master cell := local cell
unconditionally", touching only cells within the region bounds. -/
def updateWithOverwrite (cmLayer master : Costmap)
    (min_i min_j max_i max_j : ℤ) : Costmap :=
  { master with cost := fun p =>
      if inRegion min_i min_j max_i max_j p then cmLayer.cost p else master.cost p }

/-- Rank of a cost value in the domain ordering FREE < UNKNOWN < LETHAL
used by the MAX compositing mode. -/
def costRank (v : ℕ) : ℕ :=
  if v = FREE_SPACE then 0 else if v = NO_INFORMATION then 1 else 2

/-- The larger of two cost values in the FREE < UNKNOWN < LETHAL order. -/
def maxCost (a b : ℕ) : ℕ := if costRank a < costRank b then b else a

/-- Modelled from the spec: `costmap_2d::CostmapLayer::updateWithMax`, an
external host primitive — "MAX: master cell := max(master cell, local cell)
using the domain ordering FREE < UNKNOWN < LETHAL", touching only cells
within the region bounds. -/
def updateWithMax (cmLayer master : Costmap)
    (min_i min_j max_i max_j : ℤ) : Costmap :=
  { master with cost := fun p =>
      if inRegion min_i min_j max_i max_j p then maxCost (master.cost p) (cmLayer.cost p)
      else master.cost p }

/-- The body of ElevationLayer::updateCosts past the enabled/received guard
(lines 99-145): grid pass, then footprint clearing if enabled, then
compositing into the master buffer according to `combination_method`
(0 = overwrite, 1 = max, anything else = nothing).  Returns the layer (its
costmap updated) and the new master buffer. -/
def updateCostsBody (l : ElevationLayer) (master : Costmap)
    (min_i min_j max_i max_j : ℤ) : ElevationLayer × Costmap :=
  let cm1 := gridPass l
  let cm2 :=
    if l.footprint_clearing_enabled then
      cm1.setConvexPolygonCost l.transformed_footprint FREE_SPACE
    else cm1
  let master' :=
    if l.combination_method = 0 then
      updateWithOverwrite cm2 master min_i min_j max_i max_j
    else if l.combination_method = 1 then
      updateWithMax cm2 master min_i min_j max_i max_j
    else master
  ({ l with costmap := cm2 }, master')

/-- ElevationLayer::updateCosts (lines 96-146): a no-op unless the layer is
enabled and an elevation map has been received. -/
def updateCosts (l : ElevationLayer) (master : Costmap)
    (min_i min_j max_i max_j : ℤ) : ElevationLayer × Costmap :=
  if !l.enabled || !l.elevation_map_received then (l, master)
  else updateCostsBody l master min_i min_j max_i max_j

/-- The world-space bounds the caller threads through updateBounds. -/
structure Bounds where
  min_x : ℚ
  min_y : ℚ
  max_x : ℚ
  max_y : ℚ
  deriving DecidableEq

/-- costmap_2d::Layer::touch: grow the bounds to include a point. -/
def touch (x y : ℚ) (b : Bounds) : Bounds :=
  { min_x := min b.min_x x, min_y := min b.min_y y,
    max_x := max b.max_x x, max_y := max b.max_y y }

/-- ElevationLayer::updateFootprint (lines 86-94): nothing when footprint
clearing is disabled; otherwise transform the footprint to the robot pose
(the transform is the external collaborator `tfp`), store it, and touch the
bounds with every vertex. -/
def updateFootprint (tfp : ℚ → ℚ → ℚ → List (ℚ × ℚ) → List (ℚ × ℚ))
    (l : ElevationLayer) (robot_x robot_y robot_yaw : ℚ) (b : Bounds) :
    ElevationLayer × Bounds :=
  if !l.footprint_clearing_enabled then (l, b)
  else
    let tf := tfp robot_x robot_y robot_yaw l.footprint
    ({ l with transformed_footprint := tf },
     tf.foldl (fun bb p => touch p.1 p.2 bb) b)

/-- ElevationLayer::updateBounds (lines 67-84).  In rolling-window mode the
costmap origin is recentered on the robot BEFORE the enabled/received
guard; with the guard failed the bounds are returned untouched.  Otherwise
the bounds are grown over every grid cell's world position and the
footprint is processed.  (`useExtraBounds` is the identity here: the source
never calls `addExtraBounds`, so the parent's extra-bounds slot stays
empty.) -/
def updateBounds (tfp : ℚ → ℚ → ℚ → List (ℚ × ℚ) → List (ℚ × ℚ))
    (l : ElevationLayer) (robot_x robot_y robot_yaw : ℚ) (b : Bounds) :
    ElevationLayer × Bounds :=
  let l1 :=
    if l.rolling_window then
      { l with costmap := (l.costmap.updateOrigin
          (robot_x - l.costmap.getSizeInMetersX / 2)
          (robot_y - l.costmap.getSizeInMetersY / 2)) }
    else l
  if !(l1.enabled && l1.elevation_map_received) then (l1, b)
  else
    let b1 := l1.elevation_map.cells.foldl
      (fun bb idx => touch (l1.elevation_map.pos idx).1 (l1.elevation_map.pos idx).2 bb) b
    updateFootprint tfp l1 robot_x robot_y robot_yaw b1

/-! ### Interleaving model of the shared-state protocol

The callback commits the new grid and the halved threshold inside one
critical section (lines 160-162), but sets `elevation_map_received` outside
any lock (lines 168-171).  The synchronous cycle holds the mutex for its
whole pass, so its read of the shared triple is one atomic action.  Atomic
actions are the lock-granularity steps of the two threads; a schedule is
any order-preserving interleaving of the two action lists. -/

/-- The shared triple guarded (in intent) by `elevation_map_mutex_`:
the grid (abstracted to a generation number), the received flag and the
height threshold. -/
structure SharedState where
  grid : ℕ
  received : Bool
  threshold : ℚ
  deriving DecidableEq

/-- Shared state plus what the reader observed (if it has run). -/
structure World where
  s : SharedState
  observed : Option SharedState
  deriving DecidableEq

/-- The atomic actions of the callback thread and the synchronous cycle.
`commit g` is the filtered-success critical section (store grid `g`, halve
the threshold); `commitRaw g` the fallback critical section (store grid
`g`, threshold untouched); `setFlag` the unlocked flag write; `readCycle`
the synchronous cycle's locked read of the whole triple. -/
inductive CbAct where
  | commit (g : ℕ)
  | commitRaw (g : ℕ)
  | setFlag
  | readCycle
  deriving DecidableEq

/-- Effect of one atomic action on the world. -/
def CbAct.apply : CbAct → World → World
  | .commit g, w =>
      { w with s := { w.s with grid := g, threshold := w.s.threshold / 2 } }
  | .commitRaw g, w => { w with s := { w.s with grid := g } }
  | .setFlag, w => { w with s := { w.s with received := true } }
  | .readCycle, w => { w with observed := some w.s }

/-- Run a schedule of atomic actions. -/
def runActs (acts : List CbAct) (w : World) : World :=
  acts.foldl (fun w a => a.apply w) w

/-- All order-preserving interleavings of two action lists. -/
def merges : List CbAct → List CbAct → List (List CbAct)
  | [], ys => [ys]
  | x :: xs, [] => [x :: xs]
  | x :: xs, y :: ys =>
      (merges xs (y :: ys)).map (fun zs => x :: zs) ++
      (merges (x :: xs) ys).map (fun zs => y :: zs)
  termination_by xs ys => xs.length + ys.length

/-- The callback thread's atomic actions on the filtered-success path:
the locked commit, then the unlocked flag write. -/
def writerActs (g : ℕ) : List CbAct := [CbAct.commit g, CbAct.setFlag]

/-- The synchronous cycle's single locked read. -/
def readerActs : List CbAct := [CbAct.readCycle]

/-! ### Concrete fixtures used by witnesses and counterexamples -/

/-- A 4×4 costmap at the origin with resolution 1, tracking unknown space. -/
def cmA : Costmap :=
  { originX := 0, originY := 0, resolution := 1, sizeX := 4, sizeY := 4,
    defaultValue := 255, cost := fun _ => 255 }

/-- A marker grid standing for a previously stored elevation map. -/
def gmPrev : GridMap :=
  { frameId := "prev", cells := [], pos := fun _ => (0, 0), layers := [] }

/-- A layer holding `gmPrev`, enabled, already received, with the filter
chain unconfigured. -/
def lA : ElevationLayer :=
  { enabled := true, current := true, subscribed := true, rolling_window := false,
    elevation_map_received := true, filters_configuration_loaded := false,
    footprint_clearing_enabled := false, global_frame := "map",
    elevation_layer_name := "elevation", edges_layer_name := "edges",
    height_threshold := 1, edges_sharpness_threshold := 1 / 10,
    combination_method := 0, footprint := [], transformed_footprint := [],
    elevation_map := gmPrev, costmap := cmA }

/-- A filter chain that succeeds and returns its input unchanged. -/
def fuId : GridMap → Option GridMap := fun g => some g

/-- An identity footprint transform for concrete runs. -/
def tfp0 : ℚ → ℚ → ℚ → List (ℚ × ℚ) → List (ℚ × ℚ) := fun _ _ _ fp => fp

/-- `lA` disabled, with the rolling window on. -/
def lRoll : ElevationLayer := { lA with enabled := false, rolling_window := true }

/-- `lA` disabled, rolling window off. -/
def lDis : ElevationLayer := { lA with enabled := false }

/-- A one-cell grid at the world origin whose elevation equals the
threshold of `lA`. -/
def gmB : GridMap :=
  { frameId := "map", cells := [(0, 0)], pos := fun _ => (0, 0),
    layers := [("elevation", fun _ => 1)] }

/-- `lA` holding `gmB`: the single cell sits exactly at the height
threshold. -/
def lB : ElevationLayer := { lA with elevation_map := gmB }

/-- A one-cell grid whose elevation exceeds the threshold of `lA`; it has
no edges layer. -/
def gmC : GridMap :=
  { frameId := "map", cells := [(0, 0)], pos := fun _ => (0, 0),
    layers := [("elevation", fun _ => 2)] }

/-- `lA` holding `gmC`: the single cell is above the height threshold and
no edges layer exists. -/
def lC : ElevationLayer := { lA with elevation_map := gmC }

/-- Like `gmC` but with an edges layer whose value 0 is below the
sharpness threshold of `lA`. -/
def gmD : GridMap :=
  { frameId := "map", cells := [(0, 0)], pos := fun _ => (0, 0),
    layers := [("elevation", fun _ => 2), ("edges", fun _ => 0)] }

/-- `lA` holding `gmD`: high but smooth terrain. -/
def lD : ElevationLayer := { lA with elevation_map := gmD }

/-- `lA` holding `gmC` with footprint clearing on and a square footprint
polygon covering cells (0,0)..(2,2). -/
def lE : ElevationLayer :=
  { lA with
    elevation_map := gmC,
    footprint_clearing_enabled := true,
    transformed_footprint := [(0, 0), (3, 0), (3, 3), (0, 3)] }

/-! ### Basic facts about the callback -/

/-- The callback never touches the filter-chain configuration flag. -/
lemma elevationMapCallback_loaded (fu : GridMap → Option GridMap)
    (l : ElevationLayer) (conv : Option GridMap) :
    (elevationMapCallback fu l conv).filters_configuration_loaded
      = l.filters_configuration_loaded := by
  cases hL : l.filters_configuration_loaded <;>
    cases hF : fu (conv.getD emptyGridMap) <;>
      simp [elevationMapCallback, hL, hF]

/-- On the filtered-success path the threshold is halved and the filtered
map stored. -/
lemma elevationMapCallback_success (fu : GridMap → Option GridMap)
    (l : ElevationLayer) (conv : Option GridMap) (g : GridMap)
    (hL : l.filters_configuration_loaded = true)
    (hF : fu (conv.getD emptyGridMap) = some g) :
    (elevationMapCallback fu l conv).height_threshold = l.height_threshold / 2 ∧
    (elevationMapCallback fu l conv).elevation_map = g := by
  simp [elevationMapCallback, hL, hF]

/-- On the fallback path the threshold is unchanged and the raw incoming
map stored. -/
lemma elevationMapCallback_fallback (fu : GridMap → Option GridMap)
    (l : ElevationLayer) (conv : Option GridMap)
    (h : l.filters_configuration_loaded = false ∨ fu (conv.getD emptyGridMap) = none) :
    (elevationMapCallback fu l conv).height_threshold = l.height_threshold ∧
    (elevationMapCallback fu l conv).elevation_map = conv.getD emptyGridMap := by
  rcases h with h | h
  · simp [elevationMapCallback, h]
  · cases hL : l.filters_configuration_loaded <;> simp [elevationMapCallback, hL, h]

/-- Claim C3: each successful filtered commit stores the filtered grid and
exactly halves the threshold; a fallback commit leaves the threshold
unchanged; after N successful filtered commits the threshold is T0 / 2^N. -/
theorem C3_threshold_halving (fu : GridMap → Option GridMap)
    (l : ElevationLayer) (conv : Option GridMap) (msgs : List (Option GridMap)) :
    (∀ g, l.filters_configuration_loaded = true → fu (conv.getD emptyGridMap) = some g →
      (elevationMapCallback fu l conv).height_threshold = l.height_threshold / 2 ∧
      (elevationMapCallback fu l conv).elevation_map = g) ∧
    ((l.filters_configuration_loaded = false ∨ fu (conv.getD emptyGridMap) = none) →
      (elevationMapCallback fu l conv).height_threshold = l.height_threshold) ∧
    (l.filters_configuration_loaded = true →
      (∀ m ∈ msgs, ∃ g, fu (m.getD emptyGridMap) = some g) →
      (msgs.foldl (elevationMapCallback fu) l).height_threshold
        = l.height_threshold / 2 ^ msgs.length) := by
  refine ⟨fun g hL hF => elevationMapCallback_success fu l conv g hL hF,
          fun h => (elevationMapCallback_fallback fu l conv h).1, ?_⟩
  intro hL hall
  induction msgs generalizing l with
  | nil => simp
  | cons m ms ih =>
      have hm := hall m (List.mem_cons_self m ms)
      obtain ⟨g, hg⟩ := hm
      have h1 := (elevationMapCallback_success fu l m g hL hg).1
      have hL' : (elevationMapCallback fu l m).filters_configuration_loaded = true := by
        rw [elevationMapCallback_loaded]; exact hL
      have := ih (elevationMapCallback fu l m) hL'
        (fun m' hm' => hall m' (List.mem_cons_of_mem m hm'))
      simp only [List.foldl_cons, List.length_cons, this, h1]
      rw [div_div, ← pow_succ']

/-- Closed witness for C3 at a concrete layer: two successful commits take
the threshold from 1 to 1/4. -/
theorem C3_threshold_halving_witness :
    ([some emptyGridMap, some emptyGridMap].foldl (elevationMapCallback fuId)
      { lA with filters_configuration_loaded := true }).height_threshold = 1 / 4 := by
  have h := (C3_threshold_halving fuId { lA with filters_configuration_loaded := true }
    none [some emptyGridMap, some emptyGridMap]).2.2 rfl
    (by intro m _; exact ⟨m.getD emptyGridMap, rfl⟩)
  rw [h]
  norm_num [lA]

/-- Counterexample for claim C6: with the filter chain unconfigured, a
conversion failure (`conv = none`) does NOT retain the previously stored
grid — the default-constructed empty grid replaces it (frame id goes from
"prev" to the empty string). -/
theorem C6_counterexample :
    (elevationMapCallback fuId lA none).elevation_map.frameId = "" ∧
    lA.elevation_map.frameId = "prev" :=
  ⟨rfl, rfl⟩

/-- Claim C6 as amended: on hard conversion failure the callback continues
with the default-constructed empty grid and stores it (through whichever
branch the filter chain takes), overwriting the previous grid; the raw
incoming grid is stored exactly when the pipeline is unconfigured or the
filter fails. -/
theorem C6_conversion_failure_stores_empty (fu : GridMap → Option GridMap)
    (l : ElevationLayer) (conv : Option GridMap) :
    (conv = none → l.filters_configuration_loaded = false →
      (elevationMapCallback fu l conv).elevation_map = emptyGridMap) ∧
    (conv = none → l.filters_configuration_loaded = true →
      ∀ g, fu emptyGridMap = some g →
        (elevationMapCallback fu l conv).elevation_map = g) ∧
    ((l.filters_configuration_loaded = false ∨ fu (conv.getD emptyGridMap) = none) →
      (elevationMapCallback fu l conv).elevation_map = conv.getD emptyGridMap) := by
  refine ⟨?_, ?_, fun h => (elevationMapCallback_fallback fu l conv h).2⟩
  · rintro rfl hL
    exact (elevationMapCallback_fallback fu l none (Or.inl hL)).2
  · rintro rfl hL g hg
    exact (elevationMapCallback_success fu l none g hL hg).2

/-- Closed witness for the amended C6: at the concrete unconfigured layer a
conversion failure stores the empty grid. -/
theorem C6_conversion_failure_witness :
    (elevationMapCallback fuId lA none).elevation_map = emptyGridMap :=
  (C6_conversion_failure_stores_empty fuId lA none).1 rfl rfl

/-- Counterexample for claim C7: reset() does not clear the shared state —
on a layer that has received a grid, the received flag is still true after
reset (its initial, never-received value is false) and the stored grid is
still the old one. -/
theorem C7_counterexample :
    (ElevationLayer.reset lA).elevation_map_received = true ∧
    (ElevationLayer.reset lA).elevation_map.frameId = "prev" :=
  ⟨rfl, rfl⟩

/-- Claim C7 as amended: reset() deactivates, resets the output cost buffer
cells to the default value, marks the layer current and reactivates; the
stored elevation grid, the received flag and the threshold are untouched. -/
theorem C7_reset_behavior (l : ElevationLayer) :
    (ElevationLayer.reset l).elevation_map = l.elevation_map ∧
    (ElevationLayer.reset l).elevation_map_received = l.elevation_map_received ∧
    (ElevationLayer.reset l).height_threshold = l.height_threshold ∧
    (∀ p, (ElevationLayer.reset l).costmap.cost p = l.costmap.defaultValue) ∧
    (ElevationLayer.reset l).current = true ∧
    (ElevationLayer.reset l).subscribed = true := by
  refine ⟨rfl, rfl, rfl, fun p => rfl, rfl, rfl⟩

/-- Claim C10: after any callback invocation — a conversion failure
included — the received flag is true, so a subsequent updateCosts on an
enabled layer runs its full body rather than the early-return. -/
theorem C10_received_after_callback (fu : GridMap → Option GridMap)
    (l : ElevationLayer) (conv : Option GridMap) (master : Costmap)
    (min_i min_j max_i max_j : ℤ) :
    (elevationMapCallback fu l conv).elevation_map_received = true ∧
    ((elevationMapCallback fu l conv).enabled = true →
      updateCosts (elevationMapCallback fu l conv) master min_i min_j max_i max_j
        = updateCostsBody (elevationMapCallback fu l conv) master min_i min_j max_i max_j) := by
  have hrec : (elevationMapCallback fu l conv).elevation_map_received = true := by
    cases hL : l.filters_configuration_loaded <;>
      cases hF : fu (conv.getD emptyGridMap) <;>
        simp [elevationMapCallback, hL, hF]
  exact ⟨hrec, fun hen => by simp [updateCosts, hrec, hen]⟩

/-- Closed witness for C10: the received flag is true after a failed
conversion at the concrete layer. -/
theorem C10_received_witness :
    (elevationMapCallback fuId lA none).elevation_map_received = true :=
  (C10_received_after_callback fuId lA none cmA 0 0 4 4).1

/-! ### C4: the disabled / never-received guard -/

/-- Counterexample for claim C4: on a disabled layer with the rolling
window enabled, updateBounds is not a no-op on the output cost buffer —
the buffer origin is recentered on the robot (0 becomes 10 - 4/2 = 8)
before the enabled/received guard runs. -/
theorem C4_counterexample :
    ((updateBounds tfp0 lRoll 10 10 0 ⟨0, 0, 0, 0⟩).1).costmap.originX = 8 ∧
    lRoll.costmap.originX = 0 ∧ lRoll.enabled = false := by
  refine ⟨?_, rfl, rfl⟩
  norm_num [updateBounds, lRoll, lA, cmA, Costmap.updateOrigin,
    Costmap.getSizeInMetersX, Costmap.getSizeInMetersY]

/-- Claim C4 as amended: when the layer is disabled or no grid has been
received, updateCosts is a no-op and updateBounds returns the caller's
bounds unchanged; updateBounds leaves the whole layer unchanged only when
rolling-window mode is off — with it on, the costmap origin is still
recentered on the robot before the guard. -/
theorem C4_guard_noop (tfp : ℚ → ℚ → ℚ → List (ℚ × ℚ) → List (ℚ × ℚ))
    (l : ElevationLayer) (robot_x robot_y robot_yaw : ℚ) (b : Bounds)
    (master : Costmap) (min_i min_j max_i max_j : ℤ)
    (h : ¬(l.enabled = true ∧ l.elevation_map_received = true)) :
    (updateBounds tfp l robot_x robot_y robot_yaw b).2 = b ∧
    (l.rolling_window = false → (updateBounds tfp l robot_x robot_y robot_yaw b).1 = l) ∧
    updateCosts l master min_i min_j max_i max_j = (l, master) := by
  have hand : (l.enabled && l.elevation_map_received) = false := by
    cases he : l.enabled <;> cases hr : l.elevation_map_received <;> simp_all
  have hor : (!l.enabled || !l.elevation_map_received) = true := by
    cases he : l.enabled <;> cases hr : l.elevation_map_received <;> simp_all
  refine ⟨?_, ?_, ?_⟩
  · cases hrw : l.rolling_window <;> simp [updateBounds, hrw, hand]
  · intro hrw; simp [updateBounds, hrw, hand]
  · simp [updateCosts, hor]

/-- Closed witness for the amended C4 at the concrete disabled layer. -/
theorem C4_guard_noop_witness :
    (updateBounds tfp0 lDis 10 10 0 ⟨0, 0, 0, 0⟩).2 = ⟨0, 0, 0, 0⟩ ∧
    (lDis.rolling_window = false →
      (updateBounds tfp0 lDis 10 10 0 ⟨0, 0, 0, 0⟩).1 = lDis) ∧
    updateCosts lDis cmA 0 0 4 4 = (lDis, cmA) :=
  C4_guard_noop tfp0 lDis 10 10 0 ⟨0, 0, 0, 0⟩ cmA 0 0 4 4 (by simp [lDis, lA])

/-! ### C9: observability of partial commits -/

/-- Counterexample for claim C9: the schedule that runs the reader's locked
read between the callback's locked commit and its unlocked flag write is a
legal interleaving, and the reader observes grid generation 1 with the
halved threshold but the received flag still false — a partial commit of
the shared triple (grid, received-flag, threshold). -/
theorem C9_counterexample :
    [CbAct.commit 1, CbAct.readCycle, CbAct.setFlag] ∈ merges (writerActs 1) readerActs ∧
    (runActs [CbAct.commit 1, CbAct.readCycle, CbAct.setFlag]
      ⟨⟨0, false, 1⟩, none⟩).observed = some ⟨1, false, 1 / 2⟩ := by
  constructor
  · simp [merges, writerActs, readerActs]
  · rfl

/-- Claim C9 as amended: the grid and the threshold are committed inside
one critical section, so in every interleaving the reader observes a
consistent (grid, threshold) pair — either the old grid with the old
threshold or the new grid with the halved threshold.  (The received flag,
written outside the lock, carries no such guarantee.) -/
theorem C9_locked_pair_consistent (g0 g1 : ℕ) (t0 : ℚ)
    (sched : List CbAct) (obs : SharedState)
    (hs : sched ∈ merges (writerActs g1) readerActs)
    (hobs : (runActs sched ⟨⟨g0, false, t0⟩, none⟩).observed = some obs) :
    (obs.grid = g0 ∧ obs.threshold = t0) ∨
    (obs.grid = g1 ∧ obs.threshold = t0 / 2) := by
  have hsched : sched = [CbAct.commit g1, CbAct.setFlag, CbAct.readCycle] ∨
      sched = [CbAct.commit g1, CbAct.readCycle, CbAct.setFlag] ∨
      sched = [CbAct.readCycle, CbAct.commit g1, CbAct.setFlag] := by
    simpa [merges, writerActs, readerActs] using hs
  rcases hsched with rfl | rfl | rfl <;>
    simp only [runActs, List.foldl, CbAct.apply, Option.some.injEq] at hobs <;>
    subst hobs
  · exact Or.inr ⟨rfl, rfl⟩
  · exact Or.inr ⟨rfl, rfl⟩
  · exact Or.inl ⟨rfl, rfl⟩

/-- Closed witness for the amended C9 at a concrete schedule. -/
theorem C9_locked_pair_witness :
    ((⟨1, true, (1 : ℚ) / 2⟩ : SharedState).grid = 0 ∧
      (⟨1, true, (1 : ℚ) / 2⟩ : SharedState).threshold = 1) ∨
    ((⟨1, true, (1 : ℚ) / 2⟩ : SharedState).grid = 1 ∧
      (⟨1, true, (1 : ℚ) / 2⟩ : SharedState).threshold = 1 / 2) :=
  C9_locked_pair_consistent 0 1 1 [CbAct.commit 1, CbAct.setFlag, CbAct.readCycle]
    ⟨1, true, 1 / 2⟩ (by simp [merges, writerActs, readerActs]) rfl

/-! ### The grid pass as a last-write-wins list of writes -/

/-- One loop step never changes the world-to-map transform. -/
lemma passStep_worldToMap (l : ElevationLayer) (cm : Costmap) (idx : ℕ × ℕ) :
    (passStep l cm idx).worldToMap = cm.worldToMap := by
  unfold passStep
  cases cm.worldToMap (l.elevation_map.pos idx).1 (l.elevation_map.pos idx).2 <;> rfl

/-- One loop step never changes the costmap width. -/
lemma passStep_sizeX (l : ElevationLayer) (cm : Costmap) (idx : ℕ × ℕ) :
    (passStep l cm idx).sizeX = cm.sizeX := by
  unfold passStep
  cases cm.worldToMap (l.elevation_map.pos idx).1 (l.elevation_map.pos idx).2 <;> rfl

/-- One loop step never changes the costmap height. -/
lemma passStep_sizeY (l : ElevationLayer) (cm : Costmap) (idx : ℕ × ℕ) :
    (passStep l cm idx).sizeY = cm.sizeY := by
  unfold passStep
  cases cm.worldToMap (l.elevation_map.pos idx).1 (l.elevation_map.pos idx).2 <;> rfl

/-- One loop step never changes cell centers. -/
lemma passStep_cellCenter (l : ElevationLayer) (cm : Costmap) (idx : ℕ × ℕ) :
    (passStep l cm idx).cellCenter = cm.cellCenter := by
  unfold passStep
  cases cm.worldToMap (l.elevation_map.pos idx).1 (l.elevation_map.pos idx).2 <;> rfl

/-- A projection preserved by every fold step is preserved by the fold. -/
lemma foldPres {α : Type} {γ : Sort*} (g : Costmap → α → Costmap) (f : Costmap → γ)
    (h : ∀ cm x, f (g cm x) = f cm) :
    ∀ (xs : List α) (cm : Costmap), f (xs.foldl g cm) = f cm := by
  intro xs
  induction xs with
  | nil => intro cm; rfl
  | cons x xs ih => intro cm; rw [List.foldl_cons, ih, h]

/-- The grid pass keeps the world-to-map transform of the layer costmap. -/
lemma gridPass_worldToMap (l : ElevationLayer) :
    (gridPass l).worldToMap = l.costmap.worldToMap :=
  foldPres (passStep l) Costmap.worldToMap (passStep_worldToMap l)
    l.elevation_map.cells l.costmap

/-- The grid pass keeps the costmap width. -/
lemma gridPass_sizeX (l : ElevationLayer) : (gridPass l).sizeX = l.costmap.sizeX :=
  foldPres (passStep l) Costmap.sizeX (passStep_sizeX l) l.elevation_map.cells l.costmap

/-- The grid pass keeps the costmap height. -/
lemma gridPass_sizeY (l : ElevationLayer) : (gridPass l).sizeY = l.costmap.sizeY :=
  foldPres (passStep l) Costmap.sizeY (passStep_sizeY l) l.elevation_map.cells l.costmap

/-- The grid pass keeps cell centers. -/
lemma gridPass_cellCenter (l : ElevationLayer) :
    (gridPass l).cellCenter = l.costmap.cellCenter :=
  foldPres (passStep l) Costmap.cellCenter (passStep_cellCenter l)
    l.elevation_map.cells l.costmap

/-- The write list only depends on the costmap through its world-to-map
transform. -/
lemma writeList_congr (l : ElevationLayer) (cm cm' : Costmap)
    (cells : List (ℕ × ℕ)) (h : cm.worldToMap = cm'.worldToMap) :
    writeList l cm cells = writeList l cm' cells := by
  unfold writeList
  rw [h]

/-- Folding `updAux` from any accumulator: the last matching write wins,
the accumulator is the fallback. -/
lemma foldl_updAux_or (p : ℕ × ℕ) :
    ∀ (ws : List ((ℕ × ℕ) × ℕ)) (a : Option ℕ),
      ws.foldl (updAux p) a = (lastVal ws p).or a := by
  intro ws
  induction ws with
  | nil => intro a; simp [lastVal, Option.or]
  | cons kv ws ih =>
      intro a
      have h2 : lastVal (kv :: ws) p = (lastVal ws p).or (updAux p none kv) := by
        rw [lastVal, List.foldl_cons, ih]
      rw [List.foldl_cons, ih, h2]
      cases hlv : lastVal ws p with
      | some v => rfl
      | none =>
          by_cases hk : kv.1 = p <;> simp [updAux, hk, Option.or]

/-- Pointwise semantics of the grid-pass fold: the cost at `p` is the last
write aimed at `p`, or the starting value when no write hits `p`. -/
lemma passFold_cost (l : ElevationLayer) :
    ∀ (cells : List (ℕ × ℕ)) (cm : Costmap) (p : ℕ × ℕ),
      (cells.foldl (passStep l) cm).cost p
        = (lastVal (writeList l cm cells) p).getD (cm.cost p) := by
  intro cells
  induction cells with
  | nil => intro cm p; simp [writeList, lastVal]
  | cons idx cells ih =>
      intro cm p
      rw [List.foldl_cons, ih (passStep l cm idx) p,
        writeList_congr l (passStep l cm idx) cm cells (passStep_worldToMap l cm idx)]
      cases hm : cm.worldToMap (l.elevation_map.pos idx).1 (l.elevation_map.pos idx).2 with
      | none =>
          have hstep : passStep l cm idx = cm := by unfold passStep; rw [hm]
          have hwl : writeList l cm (idx :: cells) = writeList l cm cells := by
            unfold writeList; rw [List.filterMap_cons, hm]; rfl
          rw [hstep, hwl]
      | some q =>
          have hstep : passStep l cm idx = cm.setCost q.1 q.2 (cellCost l idx) := by
            unfold passStep; rw [hm]
          have hwl : writeList l cm (idx :: cells)
              = (q, cellCost l idx) :: writeList l cm cells := by
            unfold writeList; rw [List.filterMap_cons, hm]; rfl
          have h2 : lastVal ((q, cellCost l idx) :: writeList l cm cells) p
              = (lastVal (writeList l cm cells) p).or
                  (updAux p none (q, cellCost l idx)) := by
            rw [lastVal, List.foldl_cons, foldl_updAux_or]
          rw [hstep, hwl, h2]
          cases hlv : lastVal (writeList l cm cells) p with
          | some v => rfl
          | none =>
              by_cases hpq : p = (q.1, q.2)
              · simp [Costmap.setCost, updAux, hpq, Option.or]
              · have hqp : ¬((q.1, q.2) = p) := fun h => hpq h.symm
                simp [Costmap.setCost, updAux, hpq, hqp, Option.or]

/-- When no cell of the list maps to `q`, no write aims at `q`. -/
lemma lastVal_writeList_notMapped (l : ElevationLayer) (q : ℕ × ℕ) :
    ∀ (cells : List (ℕ × ℕ)),
      (∀ idx' ∈ cells,
        l.costmap.worldToMap (l.elevation_map.pos idx').1
          (l.elevation_map.pos idx').2 ≠ some q) →
      lastVal (writeList l l.costmap cells) q = none := by
  intro cells
  induction cells with
  | nil => intro _; rfl
  | cons c cs ih =>
      intro hn
      cases hm : l.costmap.worldToMap (l.elevation_map.pos c).1 (l.elevation_map.pos c).2 with
      | none =>
          have hwl : writeList l l.costmap (c :: cs) = writeList l l.costmap cs := by
            unfold writeList; rw [List.filterMap_cons, hm]; rfl
          rw [hwl]
          exact ih fun i hi => hn i (List.mem_cons_of_mem c hi)
      | some q' =>
          have hq' : ¬(q' = q) := by
            intro h
            exact hn c (List.mem_cons_self c cs) (by rw [hm, h])
          have hwl : writeList l l.costmap (c :: cs)
              = (q', cellCost l c) :: writeList l l.costmap cs := by
            unfold writeList; rw [List.filterMap_cons, hm]; rfl
          rw [hwl, lastVal, List.foldl_cons, foldl_updAux_or,
            ih fun i hi => hn i (List.mem_cons_of_mem c hi)]
          simp [updAux, hq', Option.or]

/-- When `idx` is the only cell of the list mapping to `q`, the last (and
only) write aimed at `q` carries its classification value. -/
lemma lastVal_writeList_unique (l : ElevationLayer) (idx q : ℕ × ℕ) :
    ∀ (cells : List (ℕ × ℕ)), idx ∈ cells →
      l.costmap.worldToMap (l.elevation_map.pos idx).1
        (l.elevation_map.pos idx).2 = some q →
      (∀ idx' ∈ cells,
        l.costmap.worldToMap (l.elevation_map.pos idx').1
          (l.elevation_map.pos idx').2 = some q → idx' = idx) →
      lastVal (writeList l l.costmap cells) q = some (cellCost l idx) := by
  intro cells
  induction cells with
  | nil => intro h; cases h
  | cons c cs ih =>
      intro hmem hmap huniq
      by_cases hc : idx ∈ cs
      · have hrest := ih hc hmap fun i hi h => huniq i (List.mem_cons_of_mem c hi) h
        cases hm : l.costmap.worldToMap (l.elevation_map.pos c).1 (l.elevation_map.pos c).2 with
        | none =>
            have hwl : writeList l l.costmap (c :: cs) = writeList l l.costmap cs := by
              unfold writeList; rw [List.filterMap_cons, hm]; rfl
            rw [hwl]; exact hrest
        | some q' =>
            have hwl : writeList l l.costmap (c :: cs)
                = (q', cellCost l c) :: writeList l l.costmap cs := by
              unfold writeList; rw [List.filterMap_cons, hm]; rfl
            rw [hwl, lastVal, List.foldl_cons, foldl_updAux_or, hrest]
            rfl
      · have hidx : idx = c := by
          rcases List.mem_cons.mp hmem with h | h
          · exact h
          · exact absurd h hc
        subst hidx
        have hnone : lastVal (writeList l l.costmap cs) q = none := by
          apply lastVal_writeList_notMapped
          intro i hi hmapi
          exact hc ((huniq i (List.mem_cons_of_mem idx hi) hmapi) ▸ hi)
        have hwl : writeList l l.costmap (idx :: cs)
            = (q, cellCost l idx) :: writeList l l.costmap cs := by
          unfold writeList; rw [List.filterMap_cons, hmap]; rfl
        rw [hwl, lastVal, List.foldl_cons, foldl_updAux_or, hnone]
        simp [updAux, Option.or]

/-- The first component of the updateCosts body, written out. -/
lemma updateCostsBody_fst (l : ElevationLayer) (master : Costmap)
    (min_i min_j max_i max_j : ℤ) :
    (updateCostsBody l master min_i min_j max_i max_j).1
      = { l with costmap :=
            (if l.footprint_clearing_enabled then
              (gridPass l).setConvexPolygonCost l.transformed_footprint FREE_SPACE
            else gridPass l) } := rfl

/-- Pointwise semantics of the whole updateCosts body: a cell under the
footprint (with clearing on) reads FREE; any other cell reads the last
write of the grid pass aimed at it, or its previous value. -/
lemma updateCostsBody_cost (l : ElevationLayer) (master : Costmap)
    (min_i min_j max_i max_j : ℤ) (p : ℕ × ℕ) :
    ((updateCostsBody l master min_i min_j max_i max_j).1).costmap.cost p
      = if l.footprint_clearing_enabled = true ∧ p.1 < l.costmap.sizeX ∧
            p.2 < l.costmap.sizeY ∧
            insideConvex l.transformed_footprint (l.costmap.cellCenter p) = true
        then FREE_SPACE
        else (lastVal (writeList l l.costmap l.elevation_map.cells) p).getD
          (l.costmap.cost p) := by
  rw [updateCostsBody_fst]
  cases hfp : l.footprint_clearing_enabled with
  | false =>
      simp only [hfp, if_false, Bool.false_eq_true, false_and, ite_false]
      exact passFold_cost l l.elevation_map.cells l.costmap p
  | true =>
      simp only [hfp, if_true, true_and]
      show (if p.1 < (gridPass l).sizeX ∧ p.2 < (gridPass l).sizeY ∧
            insideConvex l.transformed_footprint ((gridPass l).cellCenter p) = true
          then FREE_SPACE else (gridPass l).cost p) = _
      rw [gridPass_sizeX, gridPass_sizeY, gridPass_cellCenter]
      by_cases hcond : p.1 < l.costmap.sizeX ∧ p.2 < l.costmap.sizeY ∧
          insideConvex l.transformed_footprint (l.costmap.cellCenter p) = true
      · rw [if_pos hcond, if_pos hcond]
      · rw [if_neg hcond, if_neg hcond]
        exact passFold_cost l l.elevation_map.cells l.costmap p

/-- Polygon clearing never changes the costmap width. -/
lemma setConvexPolygonCost_sizeX (c : Costmap) (poly : List (ℚ × ℚ)) (v : ℕ) :
    (c.setConvexPolygonCost poly v).sizeX = c.sizeX := rfl

/-- Polygon clearing never changes the costmap height. -/
lemma setConvexPolygonCost_sizeY (c : Costmap) (poly : List (ℚ × ℚ)) (v : ℕ) :
    (c.setConvexPolygonCost poly v).sizeY = c.sizeY := rfl

/-- Polygon clearing never changes the world-to-map transform. -/
lemma setConvexPolygonCost_worldToMap (c : Costmap) (poly : List (ℚ × ℚ)) (v : ℕ) :
    (c.setConvexPolygonCost poly v).worldToMap = c.worldToMap := rfl

/-- Polygon clearing never changes cell centers. -/
lemma setConvexPolygonCost_cellCenter (c : Costmap) (poly : List (ℚ × ℚ)) (v : ℕ) :
    (c.setConvexPolygonCost poly v).cellCenter = c.cellCenter := rfl

/-- Pointwise reading of polygon clearing. -/
lemma setConvexPolygonCost_cost (c : Costmap) (poly : List (ℚ × ℚ)) (v : ℕ)
    (p : ℕ × ℕ) :
    (c.setConvexPolygonCost poly v).cost p
      = if p.1 < c.sizeX ∧ p.2 < c.sizeY ∧ insideConvex poly (c.cellCenter p) = true
        then v else c.cost p := rfl

/-- The write list ignores the layer's own costmap field. -/
lemma writeList_costmap_irrel (l : ElevationLayer) (X cm : Costmap)
    (cells : List (ℕ × ℕ)) :
    writeList { l with costmap := X } cm cells = writeList l cm cells := rfl

/-- With the layer enabled and a map received, updateCosts runs its body. -/
lemma updateCosts_enabled_eq (l : ElevationLayer) (master : Costmap)
    (min_i min_j max_i max_j : ℤ)
    (h_en : l.enabled = true) (h_rec : l.elevation_map_received = true) :
    updateCosts l master min_i min_j max_i max_j
      = updateCostsBody l master min_i min_j max_i max_j := by
  simp [updateCosts, h_en, h_rec]

/-- With footprint clearing off and `idx` the unique grid cell mapping to
map cell `q`, updateCosts leaves exactly the classification of `idx` at
`q`. -/
lemma updateCosts_cost_eq_cellCost (l : ElevationLayer) (master : Costmap)
    (min_i min_j max_i max_j : ℤ) (idx q : ℕ × ℕ)
    (h_en : l.enabled = true) (h_rec : l.elevation_map_received = true)
    (h_fp : l.footprint_clearing_enabled = false)
    (hmem : idx ∈ l.elevation_map.cells)
    (hmap : l.costmap.worldToMap (l.elevation_map.pos idx).1
      (l.elevation_map.pos idx).2 = some q)
    (huniq : ∀ idx' ∈ l.elevation_map.cells,
      l.costmap.worldToMap (l.elevation_map.pos idx').1
        (l.elevation_map.pos idx').2 = some q → idx' = idx) :
    ((updateCosts l master min_i min_j max_i max_j).1).costmap.cost q
      = cellCost l idx := by
  rw [updateCosts_enabled_eq l master min_i min_j max_i max_j h_en h_rec,
    updateCostsBody_cost]
  rw [if_neg (by simp [h_fp])]
  rw [lastVal_writeList_unique l idx q l.elevation_map.cells hmem hmap huniq]
  rfl

/-- Claim C1: for an in-range grid cell (the unique one mapping to its
output cell, footprint clearing off), updateCosts classifies with strict
inequalities — elevation exactly at the threshold yields FREE, elevation
strictly above yields LETHAL when no edges layer exists or the edges value
is at or above the sharpness threshold. -/
theorem C1_strict_threshold_classification (l : ElevationLayer) (master : Costmap)
    (min_i min_j max_i max_j : ℤ) (idx q : ℕ × ℕ)
    (h_en : l.enabled = true) (h_rec : l.elevation_map_received = true)
    (h_fp : l.footprint_clearing_enabled = false)
    (hmem : idx ∈ l.elevation_map.cells)
    (hmap : l.costmap.worldToMap (l.elevation_map.pos idx).1
      (l.elevation_map.pos idx).2 = some q)
    (huniq : ∀ idx' ∈ l.elevation_map.cells,
      l.costmap.worldToMap (l.elevation_map.pos idx').1
        (l.elevation_map.pos idx').2 = some q → idx' = idx) :
    (l.elevation_map.getLayer l.elevation_layer_name idx = l.height_threshold →
      ((updateCosts l master min_i min_j max_i max_j).1).costmap.cost q
        = FREE_SPACE) ∧
    (l.height_threshold < l.elevation_map.getLayer l.elevation_layer_name idx →
      (l.elevation_map.existsLayer l.edges_layer_name = false ∨
        l.edges_sharpness_threshold ≤ l.elevation_map.getLayer l.edges_layer_name idx) →
      ((updateCosts l master min_i min_j max_i max_j).1).costmap.cost q
        = LETHAL_OBSTACLE) := by
  have hc := updateCosts_cost_eq_cellCost l master min_i min_j max_i max_j idx q
    h_en h_rec h_fp hmem hmap huniq
  constructor
  · intro heq
    rw [hc]
    unfold cellCost
    rw [heq]
    simp
  · intro hgt hedge
    rw [hc]
    unfold cellCost
    rw [if_pos hgt]
    rcases hedge with he | he
    · simp [he]
    · by_cases hex : l.elevation_map.existsLayer l.edges_layer_name = true
      · simp [hex, not_lt.mpr he]
      · simp [hex]

/-- Claim C2: for an in-range cell above the height threshold with an
edges layer present, updateCosts writes FREE when the edges value is
strictly below the sharpness threshold and LETHAL when it is at or above
it. -/
theorem C2_edge_override (l : ElevationLayer) (master : Costmap)
    (min_i min_j max_i max_j : ℤ) (idx q : ℕ × ℕ)
    (h_en : l.enabled = true) (h_rec : l.elevation_map_received = true)
    (h_fp : l.footprint_clearing_enabled = false)
    (hmem : idx ∈ l.elevation_map.cells)
    (hmap : l.costmap.worldToMap (l.elevation_map.pos idx).1
      (l.elevation_map.pos idx).2 = some q)
    (huniq : ∀ idx' ∈ l.elevation_map.cells,
      l.costmap.worldToMap (l.elevation_map.pos idx').1
        (l.elevation_map.pos idx').2 = some q → idx' = idx)
    (hex : l.elevation_map.existsLayer l.edges_layer_name = true)
    (hgt : l.height_threshold < l.elevation_map.getLayer l.elevation_layer_name idx) :
    (l.elevation_map.getLayer l.edges_layer_name idx < l.edges_sharpness_threshold →
      ((updateCosts l master min_i min_j max_i max_j).1).costmap.cost q
        = FREE_SPACE) ∧
    (l.edges_sharpness_threshold ≤ l.elevation_map.getLayer l.edges_layer_name idx →
      ((updateCosts l master min_i min_j max_i max_j).1).costmap.cost q
        = LETHAL_OBSTACLE) := by
  have hc := updateCosts_cost_eq_cellCost l master min_i min_j max_i max_j idx q
    h_en h_rec h_fp hmem hmap huniq
  constructor
  · intro hlt
    rw [hc]
    unfold cellCost
    rw [if_pos hgt]
    simp [hex, hlt]
  · intro hge
    rw [hc]
    unfold cellCost
    rw [if_pos hgt]
    simp [hex, not_lt.mpr hge]

/-- Claim C5: with footprint clearing enabled, after updateCosts every
in-range output cell whose center lies under the transformed footprint
polygon holds FREE, whatever the grid pass computed there. -/
theorem C5_footprint_clears (l : ElevationLayer) (master : Costmap)
    (min_i min_j max_i max_j : ℤ) (p : ℕ × ℕ)
    (h_en : l.enabled = true) (h_rec : l.elevation_map_received = true)
    (h_fp : l.footprint_clearing_enabled = true)
    (h_in : p.1 < l.costmap.sizeX ∧ p.2 < l.costmap.sizeY)
    (h_under : insideConvex l.transformed_footprint (l.costmap.cellCenter p) = true) :
    ((updateCosts l master min_i min_j max_i max_j).1).costmap.cost p
      = FREE_SPACE := by
  rw [updateCosts_enabled_eq l master min_i min_j max_i max_j h_en h_rec,
    updateCostsBody_cost]
  exact if_pos ⟨h_fp, h_in.1, h_in.2, h_under⟩

/-- Claim C8: rasterization is idempotent — running updateCosts again on
the state it produced (same shared grid, threshold and configuration, same
region) leaves the output cost buffer cell-for-cell identical. -/
theorem C8_rasterize_idempotent (l : ElevationLayer) (master : Costmap)
    (min_i min_j max_i max_j : ℤ) (p : ℕ × ℕ) :
    ((updateCosts (updateCosts l master min_i min_j max_i max_j).1
        (updateCosts l master min_i min_j max_i max_j).2
        min_i min_j max_i max_j).1).costmap.cost p
      = ((updateCosts l master min_i min_j max_i max_j).1).costmap.cost p := by
  cases hen : l.enabled with
  | false => simp [updateCosts, hen]
  | true =>
  cases hrec : l.elevation_map_received with
  | false => simp [updateCosts, hen, hrec]
  | true =>
  rw [updateCosts_enabled_eq l master min_i min_j max_i max_j hen hrec]
  have hen1 : (updateCostsBody l master min_i min_j max_i max_j).1.enabled = true := hen
  have hrec1 : (updateCostsBody l master min_i min_j max_i max_j).1.elevation_map_received
      = true := hrec
  rw [updateCosts_enabled_eq _ _ min_i min_j max_i max_j hen1 hrec1]
  rw [updateCostsBody_cost, updateCostsBody_cost l master min_i min_j max_i max_j p]
  simp only [updateCostsBody_fst, writeList_costmap_irrel]
  cases hf : l.footprint_clearing_enabled with
  | false =>
      simp only [hf, Bool.false_eq_true, if_false, false_and, ite_false]
      rw [writeList_congr l (gridPass l) l.costmap l.elevation_map.cells
        (gridPass_worldToMap l)]
      cases hlv : lastVal (writeList l l.costmap l.elevation_map.cells) p with
      | some v => simp [hlv]
      | none => simp [hlv]
  | true =>
      simp only [hf, if_true, true_and]
      rw [setConvexPolygonCost_sizeX, setConvexPolygonCost_sizeY,
        setConvexPolygonCost_cellCenter, gridPass_sizeX, gridPass_sizeY,
        gridPass_cellCenter,
        writeList_congr l ((gridPass l).setConvexPolygonCost
          l.transformed_footprint FREE_SPACE) l.costmap l.elevation_map.cells
          (by rw [setConvexPolygonCost_worldToMap, gridPass_worldToMap])]
      by_cases hcond : p.1 < l.costmap.sizeX ∧ p.2 < l.costmap.sizeY ∧
          insideConvex l.transformed_footprint (l.costmap.cellCenter p) = true
      · rw [if_pos hcond, if_pos hcond]
      · rw [if_neg hcond, if_neg hcond]
        cases hlv : lastVal (writeList l l.costmap l.elevation_map.cells) p with
        | some v => simp [hlv]
        | none => simp [hlv]

/-- Closed witness for C1: the cell of `lB` sits exactly at the height
threshold and ends FREE. -/
theorem C1_witness :
    ((updateCosts lB cmA 0 0 4 4).1).costmap.cost (0, 0) = FREE_SPACE :=
  (C1_strict_threshold_classification lB cmA 0 0 4 4 (0, 0) (0, 0) rfl rfl rfl
    (by simp [lB, lA, gmB])
    (by norm_num [lB, lA, gmB, cmA, Costmap.worldToMap])
    (by intro i hi _; simpa [lB, lA, gmB] using hi)).1
    (by simp [lB, lA, gmB, GridMap.getLayer])

/-- Closed witness for C2: the cell of `lD` is above the height threshold
but its edges value 0 is below the sharpness threshold, so it ends FREE. -/
theorem C2_witness :
    ((updateCosts lD cmA 0 0 4 4).1).costmap.cost (0, 0) = FREE_SPACE :=
  (C2_edge_override lD cmA 0 0 4 4 (0, 0) (0, 0) rfl rfl rfl
    (by simp [lD, lA, gmD])
    (by norm_num [lD, lA, gmD, cmA, Costmap.worldToMap])
    (by intro i hi _; simpa [lD, lA, gmD] using hi)
    (by simp [lD, lA, gmD, GridMap.existsLayer])
    (by norm_num [lD, lA, gmD, GridMap.getLayer])).1
    (by simp [lD, lA, gmD, GridMap.getLayer, List.lookup])

/-- Closed witness for C5: cell (1,1) of `lE` is under the footprint
square and ends FREE although its elevation is above the threshold. -/
theorem C5_witness :
    ((updateCosts lE cmA 0 0 4 4).1).costmap.cost (1, 1) = FREE_SPACE :=
  C5_footprint_clears lE cmA 0 0 4 4 (1, 1) rfl rfl rfl
    (by constructor <;> norm_num [lE, lA, cmA])
    (by norm_num [lE, lA, cmA, insideConvex, crossProd, Costmap.cellCenter])

end ElevationMapping
